import Mathlib

/-!
Shallow embedding of `minbeam/minbeam.py` (package `minbeam`): given a set of
ellipses ("beams"), find the smallest-area ellipse that encloses them all.
The stochastic `scipy.optimize.basinhopping` search is abstracted as an
explicit `search` function supplied to `minbeam`; everything else is
translated directly from the source.
-/

namespace Minbeam

/-- A point of the Cartesian plane: one row of the `(N, 2)` point arrays of
`minbeam.py`. -/
structure Point where
  x : ℝ
  y : ℝ

/-- Euclidean distance between two points, as computed inside
`string_length` via `np.sqrt(np.sum((X - f) ** 2.0, axis=1))`. -/
noncomputable def pointDist (p q : Point) : ℝ :=
  Real.sqrt ((p.x - q.x) ^ 2 + (p.y - q.y) ^ 2)

/-- Embedding of `string_length(X, f1, f2)`: for each point of `X`, the sum of
its Euclidean distances to the two foci (`dist1 + dist2`). -/
noncomputable def string_length (X : List Point) (f1 f2 : Point) : List ℝ :=
  X.map fun p => pointDist p f1 + pointDist p f2

/-- Embedding of `focii_positions(sep, pa)`:
`f1 = [sep/2*cos(pa), sep/2*sin(pa)]`, `f2 = [-sep/2*cos(pa), -sep/2*sin(pa)]`. -/
noncomputable def focii_positions (sep pa : ℝ) : Point × Point :=
  (⟨sep / 2 * Real.cos pa, sep / 2 * Real.sin pa⟩,
   ⟨-sep / 2 * Real.cos pa, -sep / 2 * Real.sin pa⟩)

/-- Embedding of `np.max` on a one-dimensional array, as a fold of `max` over a
list (junk value `0` on the empty list, where `np.max` raises instead). -/
noncomputable def listMax : List ℝ → ℝ
  | [] => 0
  | a :: t => t.foldl max a

/-- Embedding of `np.linspace(a, b, n)` with the default `endpoint=True`:
`n` evenly spaced values from `a` to `b`, both endpoints included. -/
noncomputable def linspace (a b : ℝ) (n : ℕ) : List ℝ :=
  (List.range n).map fun k : ℕ => a + (b - a) * k / (n - 1)

/-- The angular sample grid of `minbeam`:
`theta = np.linspace(0.0, 2.0 * np.pi, 1000)`. -/
noncomputable def theta : List ℝ := linspace 0 (2 * Real.pi) 1000

/-- One input beam `(major, minor, pa)`. -/
structure Beam where
  major : ℝ
  minor : ℝ
  pa : ℝ

/-- One row of the validated `(N, 3)` input array, read by position as in the
source's `beam[0]`, `beam[1]`, `beam[2]`. -/
def rowToBeam (r : List ℝ) : Beam :=
  ⟨r.getD 0 0, r.getD 1 0, r.getD 2 0⟩

/-- The 1000 boundary samples of one beam: the pointwise pairing of the
source's `beams_x` and `beams_y` rows for that beam. -/
noncomputable def samplePoints (b : Beam) : List Point :=
  theta.map fun φ =>
    ⟨b.major / 2 * Real.cos φ * Real.cos b.pa - b.minor / 2 * Real.sin φ * Real.sin b.pa,
     b.major / 2 * Real.cos φ * Real.sin b.pa + b.minor / 2 * Real.sin φ * Real.cos b.pa⟩

/-- The flattened boundary point cloud `X` of `minbeam`: the concatenation of
the per-beam boundary samples, in input order. -/
noncomputable def pointCloud (beams : List (List ℝ)) : List Point :=
  (beams.map rowToBeam).flatMap samplePoints

/-- Embedding of `max_sep = 2.0 * np.max(beams[0:2])`: twice the maximum over
all entries (major, minor and position angle) of the first two rows. -/
noncomputable def max_sep (beams : List (List ℝ)) : ℝ :=
  2 * listMax (beams.take 2).flatten

/-- Embedding of the objective `area(params)` defined inside `best_params`
(scalar candidate case): `np.pi * s / 4.0 * np.sqrt(s ** 2.0 - sep ** 2.0)`
with `s = np.max(string_length(X, f1, f2))`. -/
noncomputable def area (X : List Point) (sep pa : ℝ) : ℝ :=
  let f := focii_positions sep pa
  let s := listMax (string_length X f.1 f.2)
  Real.pi * s / 4 * Real.sqrt (s ^ 2 - sep ^ 2)

/-- Embedding of the accept test `BasinhoppingBounds(xmin, xmax)` of
`best_params`: a candidate `x` is accepted iff it is componentwise between
`xmin` and `xmax`. -/
def BasinhoppingBounds (xmin xmax x : ℝ × ℝ) : Prop :=
  (xmin.1 ≤ x.1 ∧ xmin.2 ≤ x.2) ∧ (x.1 ≤ xmax.1 ∧ x.2 ≤ xmax.2)

/-- Well-formed input: for a list-of-rows input, `np.array(beams)` is a
two-dimensional array with second dimension 3 exactly when the collection is
nonempty and every row has exactly 3 entries. -/
def ValidBeams (beams : List (List ℝ)) : Prop :=
  beams ≠ [] ∧ ∀ r ∈ beams, r.length = 3

/-- Embedding of the entry point `minbeam(beams)`. The stochastic
`best_params` search (scipy `basinhopping`, external to the repository) is
supplied as an explicit function of the point cloud and `max_sep`; its two
outputs are the winning separation and position angle (`res.x`). -/
noncomputable def minbeam (search : List Point → ℝ → ℝ × ℝ) (beams : List (List ℝ)) :
    Except String (ℝ × ℝ × ℝ) :=
  if beams.isEmpty || beams.any fun r => r.length != 3 then
    Except.error ("Invalid shape for beams")
  else
    let X := pointCloud beams
    let p := search X (max_sep beams)
    let f := focii_positions p.1 p.2
    let major := listMax (string_length X f.1 f.2)
    let minor := Real.sqrt (major ^ 2 - p.1 ^ 2)
    Except.ok (major, minor, p.2)

/-! ### Helper lemmas about `listMax` -/

/-- The seed of a `max` fold is a lower bound of the fold. -/
lemma le_foldl_max (l : List ℝ) : ∀ a : ℝ, a ≤ l.foldl max a := by
  induction l with
  | nil => intro a; simp
  | cons b t ih =>
    intro a
    simp only [List.foldl_cons]
    exact le_trans (le_max_left a b) (ih (max a b))

/-- Every element of the list (and the seed) is below the `max` fold. -/
lemma mem_le_foldl_max (l : List ℝ) : ∀ a x : ℝ, x = a ∨ x ∈ l → x ≤ l.foldl max a := by
  induction l with
  | nil =>
    intro a x hx
    rcases hx with h | h
    · simp [h]
    · simp at h
  | cons b t ih =>
    intro a x hx
    simp only [List.foldl_cons]
    rcases hx with h | h
    · exact le_trans (h ▸ le_max_left a b) (le_foldl_max t (max a b))
    · rcases List.mem_cons.mp h with h | h
      · exact le_trans (h ▸ le_max_right a b) (le_foldl_max t (max a b))
      · exact ih (max a b) x (Or.inr h)

/-- Every element of a list is at most its `listMax`. -/
lemma le_listMax_of_mem {x : ℝ} {l : List ℝ} (h : x ∈ l) : x ≤ listMax l := by
  cases l with
  | nil => simp at h
  | cons a t =>
    rcases List.mem_cons.mp h with h | h
    · exact mem_le_foldl_max t a x (Or.inl h)
    · exact mem_le_foldl_max t a x (Or.inr h)

/-- A common lower bound of all elements of a nonempty list is a lower bound of
its `listMax`. -/
lemma le_listMax_of_forall (l : List ℝ) (h : l ≠ []) (c : ℝ) (hc : ∀ x ∈ l, c ≤ x) :
    c ≤ listMax l := by
  cases l with
  | nil => exact absurd rfl h
  | cons a t => exact le_trans (hc a (by simp)) (le_listMax_of_mem (by simp))

/-! ### Helper lemmas about distances and foci -/

/-- View of a point as a complex number, to borrow the metric-space facts. -/
noncomputable def toC (p : Point) : ℂ := ⟨p.x, p.y⟩

/-- `pointDist` is the distance between the corresponding complex numbers. -/
lemma pointDist_eq_dist (p q : Point) : pointDist p q = dist (toC p) (toC q) := by
  rw [Complex.dist_eq, Complex.abs_apply, Complex.normSq_apply]
  unfold pointDist toC
  simp only [Complex.sub_re, Complex.sub_im]
  congr 1
  ring

/-- Distances between points are nonnegative. -/
lemma pointDist_nonneg (p q : Point) : 0 ≤ pointDist p q := Real.sqrt_nonneg _

/-- The distance between the two foci produced by `focii_positions` is the
absolute value of the requested separation. -/
lemma pointDist_foci (sep pa : ℝ) :
    pointDist (focii_positions sep pa).1 (focii_positions sep pa).2 = |sep| := by
  unfold pointDist focii_positions
  have h : (sep / 2 * Real.cos pa - -sep / 2 * Real.cos pa) ^ 2
      + (sep / 2 * Real.sin pa - -sep / 2 * Real.sin pa) ^ 2
      = sep ^ 2 * (Real.sin pa ^ 2 + Real.cos pa ^ 2) := by ring
  simp only [h, Real.sin_sq_add_cos_sq, mul_one, Real.sqrt_sq_eq_abs]

/-- Triangle inequality for the string construction: the string length of any
point with respect to the two foci is at least the inter-focal distance. -/
lemma abs_sep_le_string (sep pa : ℝ) (q : Point) :
    |sep| ≤ pointDist q (focii_positions sep pa).1 + pointDist q (focii_positions sep pa).2 := by
  rw [← pointDist_foci sep pa, pointDist_eq_dist, pointDist_eq_dist, pointDist_eq_dist]
  calc dist (toC (focii_positions sep pa).1) (toC (focii_positions sep pa).2)
      ≤ dist (toC (focii_positions sep pa).1) (toC q)
        + dist (toC q) (toC (focii_positions sep pa).2) := dist_triangle _ _ _
    _ = dist (toC q) (toC (focii_positions sep pa).1)
        + dist (toC q) (toC (focii_positions sep pa).2) := by rw [dist_comm]

/-! ### Helper lemmas about the sampler and validation -/

/-- Each beam contributes exactly 1000 boundary samples. -/
lemma samplePoints_length (b : Beam) : (samplePoints b).length = 1000 := by
  rw [samplePoints, List.length_map, theta, linspace, List.length_map, List.length_range]

/-- The point cloud concatenates 1000 samples per input row. -/
lemma pointCloud_length (beams : List (List ℝ)) :
    (pointCloud beams).length = beams.length * 1000 := by
  induction beams with
  | nil => simp [pointCloud]
  | cons r t ih =>
    have hsplit : pointCloud (r :: t) = samplePoints (rowToBeam r) ++ pointCloud t := by
      simp [pointCloud]
    rw [hsplit, List.length_append, samplePoints_length, ih, List.length_cons]
    ring

/-- A nonempty input yields a nonempty point cloud. -/
lemma pointCloud_ne_nil {beams : List (List ℝ)} (h : beams ≠ []) :
    pointCloud beams ≠ [] := by
  have hlen : 0 < (pointCloud beams).length := by
    rw [pointCloud_length]
    have : 0 < beams.length := List.length_pos.mpr h
    omega
  exact List.ne_nil_of_length_pos hlen

/-- The validation test of `minbeam` fires exactly on the malformed inputs. -/
lemma cond_iff (beams : List (List ℝ)) :
    (beams.isEmpty || beams.any fun r => r.length != 3) = true ↔
      beams = [] ∨ ∃ r ∈ beams, r.length ≠ 3 := by
  simp [List.isEmpty_iff, List.any_eq_true]

/-- On well-formed input the validation test is passed. -/
lemma cond_false_of_valid {beams : List (List ℝ)} (h : ValidBeams beams) :
    (beams.isEmpty || beams.any fun r => r.length != 3) = false := by
  rw [Bool.eq_false_iff]
  intro hcond
  rcases (cond_iff beams).mp hcond with h1 | ⟨r, hr, h3⟩
  · exact h.1 h1
  · exact h3 (h.2 r hr)

/-- On well-formed input, `minbeam` returns exactly the decoded triple:
the recomputed maximal string length, the implied minor axis, and the winning
position angle. -/
lemma minbeam_ok_eq (search : List Point → ℝ → ℝ × ℝ) (beams : List (List ℝ))
    (h : ValidBeams beams) :
    minbeam search beams = Except.ok
      (listMax (string_length (pointCloud beams)
          (focii_positions (search (pointCloud beams) (max_sep beams)).1
            (search (pointCloud beams) (max_sep beams)).2).1
          (focii_positions (search (pointCloud beams) (max_sep beams)).1
            (search (pointCloud beams) (max_sep beams)).2).2),
       Real.sqrt (listMax (string_length (pointCloud beams)
          (focii_positions (search (pointCloud beams) (max_sep beams)).1
            (search (pointCloud beams) (max_sep beams)).2).1
          (focii_positions (search (pointCloud beams) (max_sep beams)).1
            (search (pointCloud beams) (max_sep beams)).2).2) ^ 2
          - (search (pointCloud beams) (max_sep beams)).1 ^ 2),
       (search (pointCloud beams) (max_sep beams)).2) := by
  unfold minbeam
  rw [cond_false_of_valid h]
  simp

/-- A successful return implies the input was well-formed. -/
lemma valid_of_ok {search : List Point → ℝ → ℝ × ℝ} {beams : List (List ℝ)}
    {y : ℝ × ℝ × ℝ} (h : minbeam search beams = Except.ok y) : ValidBeams beams := by
  by_cases hc : (beams.isEmpty || beams.any fun r => r.length != 3) = true
  · exfalso
    unfold minbeam at h
    rw [hc] at h
    simp at h
  · have hprop : ¬(beams = [] ∨ ∃ r ∈ beams, r.length ≠ 3) :=
      fun hp => hc ((cond_iff beams).mpr hp)
    push_neg at hprop
    exact ⟨hprop.1, hprop.2⟩

/-- Invariants of the decoded result for an arbitrary winning candidate:
the implied minor axis is between 0 and the recomputed major axis, and the
separation is at most the major axis. -/
lemma decode_invariants (X : List Point) (hX : X ≠ []) (sep pa : ℝ) :
    Real.sqrt (listMax (string_length X (focii_positions sep pa).1
        (focii_positions sep pa).2) ^ 2 - sep ^ 2)
      ≤ listMax (string_length X (focii_positions sep pa).1 (focii_positions sep pa).2) ∧
    (0 : ℝ) ≤ Real.sqrt (listMax (string_length X (focii_positions sep pa).1
        (focii_positions sep pa).2) ^ 2 - sep ^ 2) ∧
    sep ≤ listMax (string_length X (focii_positions sep pa).1 (focii_positions sep pa).2) := by
  set s := listMax (string_length X (focii_positions sep pa).1 (focii_positions sep pa).2)
    with hs
  have hne : string_length X (focii_positions sep pa).1 (focii_positions sep pa).2 ≠ [] := by
    simp [string_length, hX]
  have habs : |sep| ≤ s := by
    refine le_listMax_of_forall _ hne _ ?_
    intro v hv
    rcases List.mem_map.mp hv with ⟨q, hq, rfl⟩
    exact abs_sep_le_string sep pa q
  have h0 : (0 : ℝ) ≤ s := le_trans (abs_nonneg sep) habs
  refine ⟨?_, Real.sqrt_nonneg _, le_trans (le_abs_self sep) habs⟩
  calc Real.sqrt (s ^ 2 - sep ^ 2)
      ≤ Real.sqrt (s ^ 2) := Real.sqrt_le_sqrt (sub_le_self _ (sq_nonneg sep))
    _ = s := Real.sqrt_sq h0

/-- The accept test built in `best_params` — `BasinhoppingBounds(xmin, xmax)`
with `xmin = (0, 0)` and `xmax = (max_sep, π)` — holds exactly on candidates
with separation in `[0, max_sep]` and orientation in `[0, π]`. -/
lemma basinhoppingBounds_iff (ms : ℝ) (x : ℝ × ℝ) :
    BasinhoppingBounds (0, 0) (ms, Real.pi) x ↔
      x.1 ∈ Set.Icc (0 : ℝ) ms ∧ x.2 ∈ Set.Icc 0 Real.pi := by
  unfold BasinhoppingBounds
  constructor
  · rintro ⟨⟨h1, h2⟩, h3, h4⟩
    exact ⟨⟨h1, h3⟩, h2, h4⟩
  · rintro ⟨⟨h1, h3⟩, h2, h4⟩
    exact ⟨⟨h1, h2⟩, h3, h4⟩

/-! ### The claims -/

/-- C4: for every candidate parameter pair `(sep, pa)` (and nonempty point
cloud, as in every reachable call), the optimizer's objective value equals
`(π/4) · s · sqrt(s² − sep²)`, where `s` is the maximum over the point cloud of
the sum of Euclidean distances from each point to the two foci given by
`focii_positions sep pa`. -/
theorem area_formula (X : List Point) (_hX : X ≠ []) (sep pa : ℝ) :
    area X sep pa =
      Real.pi / 4 *
        listMax (X.map fun q =>
          pointDist q (focii_positions sep pa).1 + pointDist q (focii_positions sep pa).2) *
        Real.sqrt (listMax (X.map fun q =>
          pointDist q (focii_positions sep pa).1 + pointDist q (focii_positions sep pa).2) ^ 2
          - sep ^ 2) := by
  simp only [area, string_length]
  ring

/-- Witness for C4 at a concrete input. -/
theorem area_formula_witness :
    ([(⟨1, 0⟩ : Point)] ≠ []) ∧
    area [(⟨1, 0⟩ : Point)] 1 0 =
      Real.pi / 4 *
        listMax ([(⟨1, 0⟩ : Point)].map fun q =>
          pointDist q (focii_positions 1 0).1 + pointDist q (focii_positions 1 0).2) *
        Real.sqrt (listMax ([(⟨1, 0⟩ : Point)].map fun q =>
          pointDist q (focii_positions 1 0).1 + pointDist q (focii_positions 1 0).2) ^ 2
          - 1 ^ 2) :=
  ⟨by simp, area_formula [(⟨1, 0⟩ : Point)] (by simp) 1 0⟩

/-- C8: for every nonempty point set, every separation ≥ 0 and every
orientation, the maximal string length with respect to the foci of
`focii_positions` is at least the separation (triangle inequality), so the
square-root argument `s² − sep²` of the objective and of the result decoder is
nonnegative. -/
theorem sqrt_arg_nonneg (X : List Point) (hX : X ≠ []) (sep pa : ℝ) (hsep : 0 ≤ sep) :
    sep ≤ listMax (string_length X (focii_positions sep pa).1 (focii_positions sep pa).2) ∧
    0 ≤ listMax (string_length X (focii_positions sep pa).1 (focii_positions sep pa).2) ^ 2
        - sep ^ 2 := by
  obtain ⟨-, -, h1⟩ := decode_invariants X hX sep pa
  refine ⟨h1, ?_⟩
  have h2 := pow_le_pow_left₀ hsep h1 2
  linarith

/-- Witness for C8 at a concrete input. -/
theorem sqrt_arg_nonneg_witness :
    ([(⟨1, 0⟩ : Point)] ≠ []) ∧ (0 : ℝ) ≤ 1 ∧
    (1 ≤ listMax (string_length [(⟨1, 0⟩ : Point)] (focii_positions 1 0).1
        (focii_positions 1 0).2) ∧
      0 ≤ listMax (string_length [(⟨1, 0⟩ : Point)] (focii_positions 1 0).1
        (focii_positions 1 0).2) ^ 2 - 1 ^ 2) :=
  ⟨by simp, by norm_num, sqrt_arg_nonneg [(⟨1, 0⟩ : Point)] (by simp) 1 0 (by norm_num)⟩

/-- C6: `minbeam` fails with the invalid-shape error exactly when some row of
the input does not have exactly 3 entries or the input collection is empty;
on every well-formed nonempty N×3 input no validation error is raised. -/
theorem input_validation (search : List Point → ℝ → ℝ × ℝ) (beams : List (List ℝ)) :
    minbeam search beams = Except.error ("Invalid shape for beams") ↔
      beams = [] ∨ ∃ r ∈ beams, r.length ≠ 3 := by
  rw [← cond_iff beams]
  unfold minbeam
  by_cases hc : (beams.isEmpty || beams.any fun r => r.length != 3) = true
  · rw [hc]
    simp
  · rw [Bool.not_eq_true] at hc
    rw [hc]
    simp

/-- C3: on every valid input, `minbeam` returns the triple `(major, minor, pa)`
in which `major` is the maximal string length of the optimization point cloud
with respect to the foci recomputed from the winning `(separation,
orientation)`, `minor = sqrt(major² − separation²)`, and `pa` is the winning
orientation unchanged. -/
theorem result_decoder (search : List Point → ℝ → ℝ × ℝ) (beams : List (List ℝ))
    (h : ValidBeams beams) :
    minbeam search beams = Except.ok
      (listMax (string_length (pointCloud beams)
          (focii_positions (search (pointCloud beams) (max_sep beams)).1
            (search (pointCloud beams) (max_sep beams)).2).1
          (focii_positions (search (pointCloud beams) (max_sep beams)).1
            (search (pointCloud beams) (max_sep beams)).2).2),
       Real.sqrt (listMax (string_length (pointCloud beams)
          (focii_positions (search (pointCloud beams) (max_sep beams)).1
            (search (pointCloud beams) (max_sep beams)).2).1
          (focii_positions (search (pointCloud beams) (max_sep beams)).1
            (search (pointCloud beams) (max_sep beams)).2).2) ^ 2
          - (search (pointCloud beams) (max_sep beams)).1 ^ 2),
       (search (pointCloud beams) (max_sep beams)).2) :=
  minbeam_ok_eq search beams h

/-- C2: every point of the boundary point cloud has string length, with respect
to the foci computed from the winning `(separation, orientation)`, at most the
returned major axis. -/
theorem containment (search : List Point → ℝ → ℝ × ℝ) (beams : List (List ℝ))
    (M m p : ℝ) (h : minbeam search beams = Except.ok (M, m, p))
    (q : Point) (hq : q ∈ pointCloud beams) :
    pointDist q (focii_positions (search (pointCloud beams) (max_sep beams)).1
        (search (pointCloud beams) (max_sep beams)).2).1
      + pointDist q (focii_positions (search (pointCloud beams) (max_sep beams)).1
        (search (pointCloud beams) (max_sep beams)).2).2 ≤ M := by
  have hv := valid_of_ok h
  have heq := (minbeam_ok_eq search beams hv).symm.trans h
  simp only [Except.ok.injEq, Prod.mk.injEq] at heq
  obtain ⟨hM, -, -⟩ := heq
  rw [← hM]
  exact le_listMax_of_mem (List.mem_map_of_mem _ hq)

/-- C7: the returned result satisfies `major ≥ minor ≥ 0`, and the winning
focal separation satisfies `separation ≤ major`. -/
theorem result_invariants (search : List Point → ℝ → ℝ × ℝ) (beams : List (List ℝ))
    (M m p : ℝ) (h : minbeam search beams = Except.ok (M, m, p)) :
    m ≤ M ∧ 0 ≤ m ∧ (search (pointCloud beams) (max_sep beams)).1 ≤ M := by
  have hv := valid_of_ok h
  have heq := (minbeam_ok_eq search beams hv).symm.trans h
  simp only [Except.ok.injEq, Prod.mk.injEq] at heq
  obtain ⟨hM, hm, -⟩ := heq
  have hX := pointCloud_ne_nil hv.1
  obtain ⟨h1, h2, h3⟩ := decode_invariants (pointCloud beams) hX
    (search (pointCloud beams) (max_sep beams)).1
    (search (pointCloud beams) (max_sep beams)).2
  rw [← hM, ← hm]
  exact ⟨h1, h2, h3⟩

/-! ### Concrete inputs for the witnesses -/

/-- A concrete well-formed one-beam input: major 2, minor 1, position angle 0. -/
noncomputable def beams₀ : List (List ℝ) := [[2, 1, 0]]

/-- A concrete stand-in for the stochastic search, always returning the
candidate `(1, 1/2)`. -/
noncomputable def search₀ : List Point → ℝ → ℝ × ℝ := fun _ _ => (1, 1 / 2)

/-- The concrete input is well-formed. -/
lemma valid_beams₀ : ValidBeams beams₀ := by
  constructor
  · simp [beams₀]
  · intro r hr
    simp only [beams₀, List.mem_singleton] at hr
    rw [hr]
    rfl

/-- The first element of a nonempty list belongs to it. -/
lemma getD_zero_mem {α : Type} (l : List α) (d : α) (h : l ≠ []) : l.getD 0 d ∈ l := by
  cases l with
  | nil => exact absurd rfl h
  | cons a t => simp [List.getD]

/-- The major axis `minbeam` returns at the concrete input. -/
noncomputable def M₀ : ℝ :=
  listMax (string_length (pointCloud beams₀)
    (focii_positions (search₀ (pointCloud beams₀) (max_sep beams₀)).1
      (search₀ (pointCloud beams₀) (max_sep beams₀)).2).1
    (focii_positions (search₀ (pointCloud beams₀) (max_sep beams₀)).1
      (search₀ (pointCloud beams₀) (max_sep beams₀)).2).2)

/-- The minor axis `minbeam` returns at the concrete input. -/
noncomputable def m₀ : ℝ :=
  Real.sqrt (M₀ ^ 2 - (search₀ (pointCloud beams₀) (max_sep beams₀)).1 ^ 2)

/-- The position angle `minbeam` returns at the concrete input. -/
noncomputable def p₀ : ℝ := (search₀ (pointCloud beams₀) (max_sep beams₀)).2

/-- The first point of the concrete boundary point cloud. -/
noncomputable def q₀ : Point := (pointCloud beams₀).getD 0 ⟨0, 0⟩

/-- Witness for C3 at the concrete input. -/
theorem result_decoder_witness :
    ValidBeams beams₀ ∧
    minbeam search₀ beams₀ = Except.ok
      (listMax (string_length (pointCloud beams₀)
          (focii_positions (search₀ (pointCloud beams₀) (max_sep beams₀)).1
            (search₀ (pointCloud beams₀) (max_sep beams₀)).2).1
          (focii_positions (search₀ (pointCloud beams₀) (max_sep beams₀)).1
            (search₀ (pointCloud beams₀) (max_sep beams₀)).2).2),
       Real.sqrt (listMax (string_length (pointCloud beams₀)
          (focii_positions (search₀ (pointCloud beams₀) (max_sep beams₀)).1
            (search₀ (pointCloud beams₀) (max_sep beams₀)).2).1
          (focii_positions (search₀ (pointCloud beams₀) (max_sep beams₀)).1
            (search₀ (pointCloud beams₀) (max_sep beams₀)).2).2) ^ 2
          - (search₀ (pointCloud beams₀) (max_sep beams₀)).1 ^ 2),
       (search₀ (pointCloud beams₀) (max_sep beams₀)).2) :=
  ⟨valid_beams₀, result_decoder search₀ beams₀ valid_beams₀⟩

/-- Witness for C2 at the concrete input. -/
theorem containment_witness :
    minbeam search₀ beams₀ = Except.ok (M₀, m₀, p₀) ∧
    q₀ ∈ pointCloud beams₀ ∧
    pointDist q₀ (focii_positions (search₀ (pointCloud beams₀) (max_sep beams₀)).1
        (search₀ (pointCloud beams₀) (max_sep beams₀)).2).1
      + pointDist q₀ (focii_positions (search₀ (pointCloud beams₀) (max_sep beams₀)).1
        (search₀ (pointCloud beams₀) (max_sep beams₀)).2).2 ≤ M₀ :=
  have hok : minbeam search₀ beams₀ = Except.ok (M₀, m₀, p₀) :=
    minbeam_ok_eq search₀ beams₀ valid_beams₀
  have hq : q₀ ∈ pointCloud beams₀ :=
    getD_zero_mem _ _ (pointCloud_ne_nil valid_beams₀.1)
  ⟨hok, hq, containment search₀ beams₀ M₀ m₀ p₀ hok q₀ hq⟩

/-- Witness for C7 at the concrete input. -/
theorem result_invariants_witness :
    minbeam search₀ beams₀ = Except.ok (M₀, m₀, p₀) ∧
    (m₀ ≤ M₀ ∧ 0 ≤ m₀ ∧ (search₀ (pointCloud beams₀) (max_sep beams₀)).1 ≤ M₀) :=
  have hok : minbeam search₀ beams₀ = Except.ok (M₀, m₀, p₀) :=
    minbeam_ok_eq search₀ beams₀ valid_beams₀
  ⟨hok, result_invariants search₀ beams₀ M₀ m₀ p₀ hok⟩

/-! ### C1: the `max_sep` bound -/

/-- C1 counterexample: at the well-formed two-beam input
`[[1, 1/2, 3], [1, 1/2, 0]]` (each major 1 ≥ minor 1/2 > 0, position angles 3
and 0 radians), the source's `max_sep = 2.0 * np.max(beams[0:2])` is 6 —
twice the position angle 3 of the first beam — while twice the largest major
axis among the first two beams is `2 * max 1 1 = 2 ≠ 6`. -/
theorem max_sep_counterexample :
    ((1 : ℝ) ≥ 1 / 2 ∧ (1 / 2 : ℝ) > 0) ∧
    max_sep [[1, 1 / 2, 3], [1, 1 / 2, 0]] = 6 ∧
    2 * max (1 : ℝ) 1 ≠ 6 := by
  refine ⟨⟨by norm_num, by norm_num⟩, ?_, by norm_num⟩
  have hfold : max_sep [[1, 1 / 2, 3], [1, 1 / 2, 0]]
      = 2 * max (max (max (max (max (1 : ℝ) (1 / 2)) 3) 1) (1 / 2)) 0 := rfl
  rw [hfold,
    max_eq_left (by norm_num : (1 : ℝ) / 2 ≤ 1),
    max_eq_right (by norm_num : (1 : ℝ) ≤ 3),
    max_eq_left (by norm_num : (1 : ℝ) ≤ 3),
    max_eq_left (by norm_num : (1 : ℝ) / 2 ≤ 3),
    max_eq_left (by norm_num : (0 : ℝ) ≤ 3)]
  norm_num

/-- C1 amended: `max_sep` equals twice the maximum over all entries — major,
minor and position angle alike — of the first two beams in input order (for a
single-beam input, twice the maximum entry of that beam). -/
theorem max_sep_amended (M1 m1 p1 M2 m2 p2 : ℝ) (rest : List (List ℝ)) :
    max_sep ([M1, m1, p1] :: [M2, m2, p2] :: rest)
      = 2 * max (max (max (max (max M1 m1) p1) M2) m2) p2 ∧
    max_sep [[M1, m1, p1]] = 2 * max (max M1 m1) p1 := by
  constructor <;> rfl

/-! ### C5: the angular sample grid -/

/-- C5 counterexample: the sampler's angle grid is
`np.linspace(0.0, 2.0 * np.pi, 1000)`, which includes its right endpoint, so
the grid contains the angle `2π` itself — an angle outside the half-open
interval `[0, 2π)` the claim describes. -/
theorem theta_counterexample :
    2 * Real.pi ∈ theta ∧ 2 * Real.pi ∉ Set.Ico (0 : ℝ) (2 * Real.pi) := by
  constructor
  · unfold theta linspace
    refine List.mem_map.mpr ⟨999, List.mem_range.mpr (by norm_num), ?_⟩
    norm_num
  · simp [Set.mem_Ico]

/-- C5 amended: the sampler draws exactly 1000 angles uniformly spaced over the
closed interval `[0, 2π]` — `φ_k = 2πk/999` for `k = 0, …, 999`, with both
endpoints included — maps each angle to the stated rotated-ellipse Cartesian
point, and the point cloud concatenates the per-beam samples into a collection
of size N×1000. -/
theorem sampler_amended (beams : List (List ℝ)) (b : Beam) :
    theta = (List.range 1000).map (fun k : ℕ => 2 * Real.pi * k / 999) ∧
    samplePoints b = (List.range 1000).map (fun k : ℕ =>
      (⟨b.major / 2 * Real.cos (2 * Real.pi * k / 999) * Real.cos b.pa
          - b.minor / 2 * Real.sin (2 * Real.pi * k / 999) * Real.sin b.pa,
        b.major / 2 * Real.cos (2 * Real.pi * k / 999) * Real.sin b.pa
          + b.minor / 2 * Real.sin (2 * Real.pi * k / 999) * Real.cos b.pa⟩ : Point)) ∧
    (pointCloud beams).length = beams.length * 1000 := by
  have htheta : theta = (List.range 1000).map fun k : ℕ => 2 * Real.pi * k / 999 := by
    unfold theta linspace
    refine List.map_congr_left ?_
    intro k hk
    norm_num
  refine ⟨htheta, ?_, pointCloud_length beams⟩
  unfold samplePoints
  rw [htheta, List.map_map]
  rfl

/-! ### C9: the random source of the search -/

/-- The parameter list of the entry point: the source reads
`def minbeam(beams):`, so the beams collection is its only input. -/
def minbeamParams : List String := [("beams")]

/-- The keyword arguments of the `basinhopping` call in `best_params` (its
positional arguments are the objective and the initial guess): no random seed
or generator is among them, so the search draws from numpy's global state. -/
def basinhoppingKeywords : List String :=
  [("minimizer_kwargs"), ("accept_test"), ("niter")]

/-- C9 counterexample: no random seed or random source appears among the entry
point's parameters, nor among the arguments of its `basinhopping` call; the
only caller-supplied input is the beams collection. -/
theorem seed_counterexample :
    minbeamParams = [("beams")] ∧
    ("seed") ∉ minbeamParams ∧ ("seed") ∉ basinhoppingKeywords ∧
    ("rng") ∉ basinhoppingKeywords ∧ ("random_state") ∉ basinhoppingKeywords := by
  decide

/-- C9 amended: the random source of the stochastic search is implicit global
process state rather than a caller-supplied input: the entry point's only
parameter is the beams collection, and its `basinhopping` call passes no seed
or generator argument, so reproducibility requires fixing numpy's global RNG
state externally (as the example driver does with `np.random.seed`). -/
theorem seed_amended :
    (∀ p ∈ minbeamParams, p = ("beams")) ∧
    ∀ kw ∈ minbeamParams ++ basinhoppingKeywords,
      kw ≠ ("seed") ∧ kw ≠ ("rng") ∧ kw ≠ ("random_state") := by
  decide

end Minbeam
